import Mathlib

/-
Verification development for the image intake pipeline of the task-management
application ("join").

Embedded source files:
  * src/unnamed/part_007 — the complete revision of the FileUploadComponent
    (limits: 8 images, 400 KB per compressed image, 810 KB total, quality
    retry loop with decrement 0.2).  Modelled in namespace `FileUpload`.
  * src/src/app/main-pages/shared/file-upload/file-upload.component.ts — the
    earlier revision (limits: 5 images, 20 MB raw, 160 KB per compressed
    image, single encoding pass at quality 0.9).  Modelled in namespace
    `FileUploadOld`.

Modelling conventions:
  * JavaScript numbers are modelled as `Rat` (`ℚ`): every numeric expression
    occurring in the component (`length * 0.75`, the byte limits, qualities
    0.95, 0.75, …) is exactly representable both in IEEE double precision
    and in `ℚ`, so rational arithmetic is a faithful embedding of the
    arithmetic the component actually performs.
  * The canvas / FileReader encoding step is an external host facility; it
    is modelled as an oracle parameter `enc : CompressOracle` which receives
    exactly the arguments the component passes to `compressImage`
    (the original `File`, maxWidth, maxHeight, quality) and returns either a
    base64 string or an I/O failure (the `reject` paths of `compressImage`).
  * The component instance state (the `@Input` arrays and the
    `errorTooManyImages` signal) is the structure `UploadState`; methods are
    state transformers.  The fire-and-continue asynchronous launching of
    `handleFile` per file is modelled sequentially in batch order for the
    whole-batch operations; the post-`await` half of `handleFile` (which in
    JavaScript re-reads `this.imagesForUpload` when it resumes) is the
    separate transformer `handleFileResume`, so that interleavings of a
    resume with `deleteAllImagesFromForm` can be expressed directly.
  * `Array.prototype.indexOf` / `splice` are modelled with their exact
    ECMAScript index arithmetic (`jsIndexOf`, `jsSplice1`), including the
    behaviour of `splice(-1, 1)` when `indexOf` misses.
-/

/-- The TaskImage record (the Attachment of the spec) as produced by
`createTaskImage` and stored in `imagesForUpload`. -/
structure TaskImage where
  filename : String
  filenameWithoutType : String
  size : Rat
  fileExtension : String
  mimeType : String
  base64 : String
  deriving DecidableEq, Repr

/-- A candidate file as delivered by the file picker or a drop event:
name, declared MIME type, and raw byte size. -/
structure FileData where
  name : String
  type : String
  size : Nat
  deriving DecidableEq, Repr

/-- The host image-encoding facility behind `compressImage`: given the
original file, maxWidth, maxHeight and quality it produces a base64 data URL
or fails (the `reject` branches of the FileReader / Image callbacks). -/
abbrev CompressOracle := FileData → Rat → Rat → Rat → Except String String

/-- The regex replacement `filename.replace(/\.[^/.]+$/, "")`: strip a final
dot-extension whose characters contain neither a slash nor a further dot. -/
def stripExtension (s : String) : String :=
  let cs := s.data
  match cs.reverse.findIdx? (fun c => c = '.') with
  | none => s
  | some rIdx =>
    let i := cs.length - 1 - rIdx
    let ext := cs.drop (i + 1)
    if ext ≠ [] ∧ ext.all (fun c => ¬(c = '/' ∨ c = '.')) then
      String.mk (cs.take i)
    else s

/-- The regex replacement `mimeType.replace(/^image\//, ".")`: turn a leading
"image/" into a dot. -/
def mimeToExtension (mimeType : String) : String :=
  if mimeType.startsWith "image/" then "." ++ mimeType.drop 6 else mimeType

/-- Sum of the `size` fields, as accumulated by the `forEach` loop of
`noRoomForAnotherImage`. -/
def sumSizes (l : List TaskImage) : Rat :=
  l.foldl (fun acc img => acc + img.size) 0

/-- ECMAScript `Array.prototype.indexOf` on the attachment list: index of the
first match, `-1` when absent. -/
def jsIndexOf (l : List TaskImage) (x : TaskImage) : Int :=
  match l.findIdx? (fun y => y = x) with
  | some i => (i : Int)
  | none => -1

/-- ECMAScript `Array.prototype.splice(start, 1)`: with a negative start the
actual index is `max (len + start) 0`, with a nonnegative start it is
`min start len`; at most one element is removed. -/
def jsSplice1 (l : List TaskImage) (start : Int) : List TaskImage :=
  let len : Int := l.length
  let actual : Nat := if start < 0 then (max (len + start) 0).toNat else min start.toNat l.length
  l.take actual ++ l.drop (actual + 1)

/-- The two-line body of `deleteSingelImage` acting on the list:
`indexOf` followed by `splice(index, 1)`. -/
def deleteSingelImage (l : List TaskImage) (imageToDelete : TaskImage) : List TaskImage :=
  jsSplice1 l (jsIndexOf l imageToDelete)

namespace FileUpload

/-- src/unnamed/part_007: maximum size of one compressed image (400 KB). -/
def MAX_SINGLE_IMAGE_BYTES : Rat := 400 * 1024

/-- src/unnamed/part_007: maximum combined size of all images (810 KB). -/
def MAX_TOTAL_IMAGES_BYTES : Rat := 810 * 1024

/-- src/unnamed/part_007: maximum number of images per task. -/
def MAX_IMAGES : Nat := 8

/-- The component-instance state of the complete revision: the attachment
list, the three per-category filename lists, and the too-many-images signal. -/
structure UploadState where
  imagesForUpload : List TaskImage
  invalidFiles : List String
  totalSizeExceededFiles : List String
  oversizedCompressedImages : List String
  errorTooManyImages : Bool
  deriving DecidableEq, Repr

/-- Method `wouldExceedImageLimit(additionalCount)`: compares the current
count plus the additions against `MAX_IMAGES`, stores the outcome in the
`errorTooManyImages` signal, and returns it. -/
def wouldExceedImageLimit (s : UploadState) (additionalCount : Nat) : Bool × UploadState :=
  let totalCount := s.imagesForUpload.length + additionalCount
  let exceedsLimit := decide (totalCount > MAX_IMAGES)
  (exceedsLimit, { s with errorTooManyImages := exceedsLimit })

/-- Method `resetWarnings()`: empties the three warning arrays and
recomputes the image-limit state via `wouldExceedImageLimit()`. -/
def resetWarnings (s : UploadState) : UploadState :=
  (wouldExceedImageLimit
    { s with invalidFiles := [], totalSizeExceededFiles := [], oversizedCompressedImages := [] }
    0).2

/-- Method `isInvalidImageFormat(file)`: accepts exactly `image/jpeg` and
`image/webp`; otherwise records the filename in `invalidFiles`. -/
def isInvalidImageFormat (s : UploadState) (file : FileData) : Bool × UploadState :=
  if file.type = "image/jpeg" ∨ file.type = "image/webp" then
    (false, s)
  else
    (true, { s with invalidFiles := s.invalidFiles ++ [file.name] })

/-- Method `imageExceedsSizeLimit(newImageBytes, newImageName)`: strict
comparison against `MAX_SINGLE_IMAGE_BYTES`; on failure the name is recorded
in `oversizedCompressedImages`. -/
def imageExceedsSizeLimit (s : UploadState) (newImageBytes : Rat) (newImageName : String) :
    Bool × UploadState :=
  if newImageBytes > MAX_SINGLE_IMAGE_BYTES then
    (true, { s with oversizedCompressedImages := s.oversizedCompressedImages ++ [newImageName] })
  else
    (false, s)

/-- Method `noRoomForAnotherImage(newImageBytes, newImageName)`: sums the
stored sizes; there is room exactly when `currentTotal + newImageBytes` is
strictly below `MAX_TOTAL_IMAGES_BYTES`, otherwise the name is recorded in
`totalSizeExceededFiles`. -/
def noRoomForAnotherImage (s : UploadState) (newImageBytes : Rat) (newImageName : String) :
    Bool × UploadState :=
  let currentTotalImageBytes := sumSizes s.imagesForUpload
  if currentTotalImageBytes + newImageBytes < MAX_TOTAL_IMAGES_BYTES then
    (false, s)
  else
    (true, { s with totalSizeExceededFiles := s.totalSizeExceededFiles ++ [newImageName] })

/-- Method `createTaskImage(file, compressedBase64)`: extension from the MIME
type, base name via the extension-stripping regex, and
`byteSize = compressedBase64.length * 0.75`. -/
def createTaskImage (file : FileData) (compressedBase64 : String) : TaskImage :=
  { filename := file.name
    filenameWithoutType := stripExtension file.name
    size := (compressedBase64.length : Rat) * 0.75
    fileExtension := mimeToExtension file.type
    mimeType := file.type
    base64 := compressedBase64 }

/-- The `for (let i = 0; i < 4; i++)` retry loop of `compressToTargetSize`,
with the remaining iteration count as fuel: while the current estimate
`compressedBase64.length * 0.75` exceeds `MAX_SINGLE_IMAGE_BYTES`, lower the
quality by 0.2 and re-encode the original file at the same 800×800 bounds. -/
def compressLoop (enc : CompressOracle) (file : FileData) (quality : Rat)
    (compressedBase64 : String) : Nat → Except String String
  | 0 => Except.ok compressedBase64
  | Nat.succ n =>
    if (compressedBase64.length : Rat) * 0.75 > MAX_SINGLE_IMAGE_BYTES then
      match enc file 800 800 (quality - 0.2) with
      | Except.error e => Except.error e
      | Except.ok b2 => compressLoop enc file (quality - 0.2) b2 n
    else
      Except.ok compressedBase64

/-- Method `compressToTargetSize(file)`: first encoding at quality 0.95, then
at most 4 retries via `compressLoop`.  An encoding failure propagates as the
rejection of the surrounding promise. -/
def compressToTargetSize (enc : CompressOracle) (file : FileData) : Except String String :=
  match enc file 800 800 0.95 with
  | Except.error e => Except.error e
  | Except.ok compressedBase64 => compressLoop enc file 0.95 compressedBase64 4

/-- Method `shouldSkipFile(file)`: `wouldExceedImageLimit() ||
isInvalidImageFormat(file)` with JavaScript short-circuiting (the format
check and its filename recording run only when the count check passes). -/
def shouldSkipFile (s : UploadState) (file : FileData) : Bool × UploadState :=
  let w := wouldExceedImageLimit s 0
  if w.1 then (true, w.2)
  else isInvalidImageFormat w.2 file

/-- The part of `handleFile` that runs after `await compressToTargetSize`
resolves: in JavaScript this code re-reads `this.imagesForUpload` at resume
time, so it is a transformer of whatever the component state is at that
moment.  It builds the TaskImage, applies the per-file and aggregate size
checks, and on success pushes the image onto the current list. -/
def handleFileResume (s : UploadState) (file : FileData) (compressedBase64 : String) :
    UploadState :=
  let imageObject := createTaskImage file compressedBase64
  let r1 := imageExceedsSizeLimit s imageObject.size file.name
  if r1.1 then r1.2
  else
    let r2 := noRoomForAnotherImage r1.2 imageObject.size file.name
    if r2.1 then r2.2
    else { r2.2 with imagesForUpload := r2.2.imagesForUpload ++ [imageObject] }

/-- Method `handleFile(file)` under the sequential interpretation (the state
at resume time is the state right after the pre-`await` checks): skip checks,
compression via the oracle, then `handleFileResume`.  A compression failure
(rejected promise) aborts this file only; no state change occurs beyond the
signal update already performed by `shouldSkipFile`. -/
def handleFile (enc : CompressOracle) (s : UploadState) (file : FileData) : UploadState :=
  let sk := shouldSkipFile s file
  if sk.1 then sk.2
  else
    match compressToTargetSize enc file with
    | Except.error _ => sk.2
    | Except.ok compressedBase64 => handleFileResume sk.2 file compressedBase64

/-- Method `addImages(files)`: reset the warning arrays, check the whole
batch against the count limit (rejecting the entire batch without touching
any file when it trips), otherwise process every file. -/
def addImages (enc : CompressOracle) (s : UploadState) (files : List FileData) : UploadState :=
  let s0 := resetWarnings s
  let w := wouldExceedImageLimit s0 files.length
  if !w.1 then
    let s1 := if files.length > 0 then files.foldl (handleFile enc) w.2 else w.2
    { s1 with errorTooManyImages := false }
  else
    { w.2 with errorTooManyImages := true }

/-- Method `deleteAllImagesFromForm()`: replace the list by a fresh empty
array, clear the signal, and reset the warnings. -/
def deleteAllImagesFromForm (s : UploadState) : UploadState :=
  resetWarnings { s with imagesForUpload := [], errorTooManyImages := false }

/-- Method `deleteSingelImage(imageToDelete)` at the state level:
`indexOf` + `splice` on the list, then `resetWarnings`. -/
def deleteSingelImageState (s : UploadState) (imageToDelete : TaskImage) : UploadState :=
  resetWarnings { s with imagesForUpload := deleteSingelImage s.imagesForUpload imageToDelete }

/-- The user-reachable operations on the component, for stating invariants
over arbitrary operation sequences. -/
inductive Op where
  | addFiles (files : List FileData)
  | removeOne (img : TaskImage)
  | clearAll
  deriving Repr

/-- Interpretation of one operation on the component state. -/
def applyOp (enc : CompressOracle) (s : UploadState) : Op → UploadState
  | Op.addFiles files => addImages enc s files
  | Op.removeOne img => deleteSingelImageState s img
  | Op.clearAll => deleteAllImagesFromForm s

end FileUpload

namespace FileUploadOld

/-- The component-instance state of the earlier revision
(src/src/app/main-pages/shared/file-upload/file-upload.component.ts):
attachment list, the three warning arrays of this revision
(`invalidFiles`, `oversizedCompressedImages`, `oversizedImages`), the
too-many-images signal, and the stored batch length. -/
structure UploadState where
  imagesForUpload : List TaskImage
  invalidFiles : List String
  oversizedCompressedImages : List String
  oversizedImages : List String
  errorToManyImages : Bool
  lenghtOfImagesToValidate : Nat
  deriving DecidableEq, Repr

/-- Method `thereAreToManyFiles()`: more than four stored images trips the
signal; the signal value is returned. -/
def thereAreToManyFiles (s : UploadState) : Bool × UploadState :=
  if s.imagesForUpload.length > 4 then
    (true, { s with errorToManyImages := true })
  else
    (false, { s with errorToManyImages := false })

/-- Method `isInvalidImageFormat(file)` of the earlier revision: accepts
`image/png`, `image/jpeg` and `image/webp`; otherwise records the name. -/
def isInvalidImageFormat (s : UploadState) (file : FileData) : Bool × UploadState :=
  if file.type = "image/png" ∨ file.type = "image/jpeg" ∨ file.type = "image/webp" then
    (false, s)
  else
    (true, { s with invalidFiles := s.invalidFiles ++ [file.name] })

/-- Method `isOversizedImage(file)`: raw size ceiling of 20 MB on the
original file. -/
def isOversizedImage (s : UploadState) (file : FileData) : Bool × UploadState :=
  if file.size > 20 * 1024 * 1024 then
    (true, { s with oversizedImages := s.oversizedImages ++ [file.name] })
  else
    (false, s)

/-- Method `isOversizedCompressedImage(name, size)`: 160 KB ceiling on the
compressed estimate. -/
def isOversizedCompressedImage (s : UploadState) (name : String) (size : Rat) :
    Bool × UploadState :=
  if size > 160 * 1024 then
    (true, { s with oversizedCompressedImages := s.oversizedCompressedImages ++ [name] })
  else
    (false, s)

/-- Method `resetWarnings()` of the earlier revision. -/
def resetWarnings (s : UploadState) : UploadState :=
  (thereAreToManyFiles
    { s with invalidFiles := [], oversizedCompressedImages := [], oversizedImages := [] }).2

/-- Method `createTaskImage(file, compressedBase64)` of the earlier revision:
the stored filename is renamed to the `.webp` output format and
`byteSize = compressedBase64.length * 0.75`. -/
def createTaskImage (file : FileData) (compressedBase64 : String) : TaskImage :=
  { filename := stripExtension file.name ++ ".webp"
    filenameWithoutType := stripExtension file.name
    size := (compressedBase64.length : Rat) * 0.75
    fileExtension := ".webp"
    mimeType := "image/webp"
    base64 := compressedBase64 }

/-- Method `shouldSkipImage(file)`: `thereAreToManyFiles() ||
isInvalidImageFormat(file) || isOversizedImage(file)` with JavaScript
short-circuiting. -/
def shouldSkipImage (s : UploadState) (file : FileData) : Bool × UploadState :=
  let w := thereAreToManyFiles s
  if w.1 then (true, w.2)
  else
    let fm := isInvalidImageFormat w.2 file
    if fm.1 then (true, fm.2)
    else isOversizedImage fm.2 file

/-- Method `handleFile(file)` of the earlier revision, sequential
interpretation: skip checks, a single encoding pass
`compressImage(file, 800, 800, 0.9)`, the compressed-size check, then push.
A rejected encoding promise aborts this file only. -/
def handleFile (enc : CompressOracle) (s : UploadState) (file : FileData) : UploadState :=
  let sk := shouldSkipImage s file
  if sk.1 then sk.2
  else
    match enc file 800 800 0.9 with
    | Except.error _ => sk.2
    | Except.ok compressedBase64 =>
      let imageObject := createTaskImage file compressedBase64
      let ov := isOversizedCompressedImage sk.2 file.name imageObject.size
      if ov.1 then ov.2
      else { ov.2 with imagesForUpload := ov.2.imagesForUpload ++ [imageObject] }

/-- Method `addImages(files)` of the earlier revision: store the batch
length, reset warnings, and process the batch only when
`files.length + imagesForUpload.length < 6`. -/
def addImages (enc : CompressOracle) (s : UploadState) (files : List FileData) : UploadState :=
  let s0 := resetWarnings { s with lenghtOfImagesToValidate := files.length }
  if files.length + s0.imagesForUpload.length < 6 then
    let s1 := if files.length > 0 then files.foldl (handleFile enc) s0 else s0
    { s1 with errorToManyImages := false }
  else
    { s0 with errorToManyImages := true }

/-- Method `deleteAllImagesFromForm()` of the earlier revision. -/
def deleteAllImagesFromForm (s : UploadState) : UploadState :=
  resetWarnings { s with imagesForUpload := [], errorToManyImages := false }

/-- Method `deleteSingelImage(imageToDelete)` of the earlier revision at the
state level: same `indexOf` + `splice` body, then `resetWarnings`. -/
def deleteSingelImageState (s : UploadState) (imageToDelete : TaskImage) : UploadState :=
  resetWarnings { s with imagesForUpload := deleteSingelImage s.imagesForUpload imageToDelete }

/-- The user-reachable operations on the earlier revision. -/
inductive Op where
  | addFiles (files : List FileData)
  | removeOne (img : TaskImage)
  | clearAll
  deriving Repr

/-- Interpretation of one operation of the earlier revision. -/
def applyOp (enc : CompressOracle) (s : UploadState) : Op → UploadState
  | Op.addFiles files => addImages enc s files
  | Op.removeOne img => deleteSingelImageState s img
  | Op.clearAll => deleteAllImagesFromForm s

end FileUploadOld

namespace FileUpload

/-- Method `setCanvasSize(canvas, img, maxWidth, maxHeight)`: the dimension
computation applied to the canvas before drawing (the canvas mutation itself
is host state; the function's value is the `{width, height}` record it
returns, which is also what `drawImage` receives). -/
def setCanvasSize (imgWidth imgHeight maxWidth maxHeight : Rat) : Rat × Rat :=
  if imgWidth > maxWidth ∨ imgHeight > maxHeight then
    if imgWidth > imgHeight then
      (maxWidth, imgHeight * maxWidth / imgWidth)
    else
      (imgWidth * maxHeight / imgHeight, maxHeight)
  else
    (imgWidth, imgHeight)

end FileUpload

/-- Modelled from the spec wording of the resampling rule: the uniform scale
factor `min(1, maxWidth/width, maxHeight/height)`.  Used to compare
`setCanvasSize` against the specified formula. -/
def specScaleFactor (w h maxW maxH : Rat) : Rat :=
  min 1 (min (maxW / w) (maxH / h))

/-- Byte-size estimate of an encoded payload, the `length * 0.75` ratio the
component applies everywhere. -/
def estSize (b : String) : Rat := (b.length : Rat) * 0.75

/-- The quality ladder actually traversed by `compressToTargetSize`:
0.95 and then four decrements of 0.2. -/
def retryQualities : List Rat := [0.95, 0.75, 0.55, 0.35, 0.15]

/-- The quality at which `compressToTargetSize` stops, for an encoder whose
output at quality `q` is `g q`: the first quality of the ladder whose
estimated size fits `MAX_SINGLE_IMAGE_BYTES`, or the final quality 0.15 when
all retries are exhausted. -/
def chosenQuality (g : Rat → String) : Rat :=
  if estSize (g 0.95) ≤ FileUpload.MAX_SINGLE_IMAGE_BYTES then 0.95
  else if estSize (g 0.75) ≤ FileUpload.MAX_SINGLE_IMAGE_BYTES then 0.75
  else if estSize (g 0.55) ≤ FileUpload.MAX_SINGLE_IMAGE_BYTES then 0.55
  else if estSize (g 0.35) ≤ FileUpload.MAX_SINGLE_IMAGE_BYTES then 0.35
  else 0.15

/-- A small attachment used in concrete scenarios. -/
def imgA : TaskImage :=
  { filename := "a.jpeg", filenameWithoutType := "a", size := 10,
    fileExtension := ".jpeg", mimeType := "image/jpeg", base64 := "xa" }

/-- A second, distinct attachment. -/
def imgB : TaskImage := { imgA with filename := "b.jpeg", filenameWithoutType := "b" }

/-- A third attachment, distinct from the other two. -/
def imgC : TaskImage := { imgA with filename := "c.jpeg", filenameWithoutType := "c" }

/-- A valid JPEG candidate file. -/
def fGood : FileData := { name := "new.jpeg", type := "image/jpeg", size := 100 }

/-- A candidate file with a format outside the accepted set. -/
def fGif : FileData := { name := "anim.gif", type := "image/gif", size := 100 }

/-- A valid JPEG candidate whose read will fail in I/O scenarios. -/
def fBad : FileData := { name := "bad.jpeg", type := "image/jpeg", size := 100 }

/-- An encoding oracle that always succeeds with a 4-character payload. -/
def encOk : CompressOracle := fun _ _ _ _ => Except.ok "bbbb"

/-- An encoding oracle that fails on `fBad` (FileReader rejection) and
succeeds on every other file. -/
def encSel : CompressOracle := fun f _ _ _ =>
  if f.name = "bad.jpeg" then Except.error "Failed to read file." else Except.ok "bbbb"

/-- The component state with no attachments and no warnings. -/
def emptyState : FileUpload.UploadState :=
  { imagesForUpload := [], invalidFiles := [], totalSizeExceededFiles := [],
    oversizedCompressedImages := [], errorTooManyImages := false }

/-- A state already holding eight attachments (the maximum of the complete
revision). -/
def fullState : FileUpload.UploadState :=
  { emptyState with imagesForUpload := List.replicate 8 imgA }

/-- The component state just before the clear in the straggler scenario:
one already-accepted attachment, while `fGood` (launched in an earlier
batch and already past its pre-await checks) is still being compressed. -/
def preClearState : FileUpload.UploadState := { emptyState with imagesForUpload := [imgA] }

/-- An attachment whose size leaves exactly 3 bytes of headroom below the
810 KB aggregate budget. -/
def imgBudget : TaskImage := { imgA with size := 810 * 1024 - 3 }

/-- A state whose stored total is exactly 3 bytes below the aggregate
budget. -/
def nearFullState : FileUpload.UploadState := { emptyState with imagesForUpload := [imgBudget] }

lemma sumSizes_append (l : List TaskImage) (x : TaskImage) :
    sumSizes (l ++ [x]) = sumSizes l + x.size := by
  simp [sumSizes, List.foldl_append]

namespace FileUpload

lemma handleFileResume_eq (s : UploadState) (f : FileData) (b : String) :
    handleFileResume s f b =
      if (createTaskImage f b).size > MAX_SINGLE_IMAGE_BYTES then
        { s with oversizedCompressedImages := s.oversizedCompressedImages ++ [f.name] }
      else if sumSizes s.imagesForUpload + (createTaskImage f b).size < MAX_TOTAL_IMAGES_BYTES then
        { s with imagesForUpload := s.imagesForUpload ++ [createTaskImage f b] }
      else
        { s with totalSizeExceededFiles := s.totalSizeExceededFiles ++ [f.name] } := by
  by_cases h1 : (createTaskImage f b).size > MAX_SINGLE_IMAGE_BYTES
  · simp [handleFileResume, imageExceedsSizeLimit, noRoomForAnotherImage, h1]
  · by_cases h2 : sumSizes s.imagesForUpload + (createTaskImage f b).size < MAX_TOTAL_IMAGES_BYTES
    · simp [handleFileResume, imageExceedsSizeLimit, noRoomForAnotherImage, h1, h2]
    · simp [handleFileResume, imageExceedsSizeLimit, noRoomForAnotherImage, h1, h2]

lemma handleFile_eq (enc : CompressOracle) (s : UploadState) (f : FileData) :
    handleFile enc s f =
      if s.imagesForUpload.length > MAX_IMAGES then
        { s with errorTooManyImages := true }
      else if f.type = "image/jpeg" ∨ f.type = "image/webp" then
        match compressToTargetSize enc f with
        | Except.error _ => { s with errorTooManyImages := false }
        | Except.ok b => handleFileResume { s with errorTooManyImages := false } f b
      else
        { s with errorTooManyImages := false, invalidFiles := s.invalidFiles ++ [f.name] } := by
  by_cases h1 : s.imagesForUpload.length > MAX_IMAGES
  · simp [handleFile, shouldSkipFile, wouldExceedImageLimit, isInvalidImageFormat, h1]
  · by_cases h2 : f.type = "image/jpeg" ∨ f.type = "image/webp"
    · rcases hc : compressToTargetSize enc f with e | b <;>
        simp [handleFile, shouldSkipFile, wouldExceedImageLimit, isInvalidImageFormat, h1, h2, hc]
    · simp [handleFile, shouldSkipFile, wouldExceedImageLimit, isInvalidImageFormat, h1, h2]

lemma handleFile_images (enc : CompressOracle) (s : UploadState) (f : FileData) :
    (handleFile enc s f).imagesForUpload = s.imagesForUpload ∨
    ∃ img : TaskImage,
      (handleFile enc s f).imagesForUpload = s.imagesForUpload ++ [img] ∧
      sumSizes s.imagesForUpload + img.size < MAX_TOTAL_IMAGES_BYTES := by
  rw [handleFile_eq]
  by_cases h1 : s.imagesForUpload.length > MAX_IMAGES
  · rw [if_pos h1]; left; rfl
  · rw [if_neg h1]
    by_cases h2 : f.type = "image/jpeg" ∨ f.type = "image/webp"
    · rw [if_pos h2]
      rcases hc : compressToTargetSize enc f with e | b
      · left; rfl
      · simp only [handleFileResume_eq]
        by_cases h3 : (createTaskImage f b).size > MAX_SINGLE_IMAGE_BYTES
        · rw [if_pos h3]; left; rfl
        · rw [if_neg h3]
          by_cases h4 : sumSizes s.imagesForUpload + (createTaskImage f b).size <
              MAX_TOTAL_IMAGES_BYTES
          · rw [if_pos h4]; right; exact ⟨createTaskImage f b, rfl, h4⟩
          · rw [if_neg h4]; left; rfl
    · rw [if_neg h2]; left; rfl

lemma handleFile_sum (enc : CompressOracle) (s : UploadState) (f : FileData)
    (h : sumSizes s.imagesForUpload ≤ MAX_TOTAL_IMAGES_BYTES) :
    sumSizes (handleFile enc s f).imagesForUpload ≤ MAX_TOTAL_IMAGES_BYTES := by
  rcases handleFile_images enc s f with hi | ⟨img, hi, hlt⟩
  · rw [hi]; exact h
  · rw [hi, sumSizes_append]; exact le_of_lt hlt

lemma handleFile_len (enc : CompressOracle) (s : UploadState) (f : FileData) :
    (handleFile enc s f).imagesForUpload.length ≤ s.imagesForUpload.length + 1 := by
  rcases handleFile_images enc s f with hi | ⟨img, hi, _⟩
  · rw [hi]; omega
  · rw [hi]; simp

lemma foldl_handleFile_sum (enc : CompressOracle) (files : List FileData) :
    ∀ s : UploadState, sumSizes s.imagesForUpload ≤ MAX_TOTAL_IMAGES_BYTES →
      sumSizes ((files.foldl (handleFile enc) s).imagesForUpload) ≤ MAX_TOTAL_IMAGES_BYTES := by
  induction files with
  | nil => intro s h; exact h
  | cons f fs ih => intro s h; exact ih _ (handleFile_sum enc s f h)

lemma foldl_handleFile_len (enc : CompressOracle) (files : List FileData) :
    ∀ s : UploadState,
      ((files.foldl (handleFile enc) s).imagesForUpload).length ≤
        s.imagesForUpload.length + files.length := by
  induction files with
  | nil => intro s; simp
  | cons f fs ih =>
    intro s
    calc ((fs.foldl (handleFile enc) (handleFile enc s f)).imagesForUpload).length
        ≤ (handleFile enc s f).imagesForUpload.length + fs.length := ih _
      _ ≤ s.imagesForUpload.length + 1 + fs.length := by
          have := handleFile_len enc s f; omega
      _ = s.imagesForUpload.length + (f :: fs).length := by simp [List.length_cons]; omega

lemma resetWarnings_images (s : UploadState) :
    (resetWarnings s).imagesForUpload = s.imagesForUpload := by
  simp [resetWarnings, wouldExceedImageLimit]

lemma addImages_eq (enc : CompressOracle) (s : UploadState) (files : List FileData) :
    addImages enc s files =
      if s.imagesForUpload.length + files.length > MAX_IMAGES then
        { resetWarnings s with errorTooManyImages := true }
      else
        { files.foldl (handleFile enc) { resetWarnings s with errorTooManyImages := false } with
            errorTooManyImages := false } := by
  by_cases h : s.imagesForUpload.length + files.length > MAX_IMAGES
  · simp [addImages, wouldExceedImageLimit, resetWarnings_images, h]
  · by_cases h0 : files.length > 0
    · simp [addImages, wouldExceedImageLimit, resetWarnings_images, h, h0]
    · have hnil : files = [] := List.length_eq_zero.mp (by omega)
      subst hnil
      have h2 : s.imagesForUpload.length ≤ MAX_IMAGES := by
        simp only [List.length_nil, Nat.add_zero] at h; omega
      simp [addImages, wouldExceedImageLimit, resetWarnings_images, h, h2]
      rw [if_neg (not_lt.mpr h2)]

lemma addImages_sum (enc : CompressOracle) (s : UploadState) (files : List FileData)
    (h : sumSizes s.imagesForUpload ≤ MAX_TOTAL_IMAGES_BYTES) :
    sumSizes ((addImages enc s files).imagesForUpload) ≤ MAX_TOTAL_IMAGES_BYTES := by
  rw [addImages_eq]
  split_ifs with h1
  · simpa [resetWarnings_images] using h
  · have := foldl_handleFile_sum enc files
      { resetWarnings s with errorTooManyImages := false }
      (by simpa [resetWarnings_images] using h)
    simpa using this

lemma addImages_len (enc : CompressOracle) (s : UploadState) (files : List FileData)
    (h : s.imagesForUpload.length ≤ MAX_IMAGES) :
    ((addImages enc s files).imagesForUpload).length ≤ MAX_IMAGES := by
  rw [addImages_eq]
  split_ifs with h1
  · simpa [resetWarnings_images] using h
  · have := foldl_handleFile_len enc files
      { resetWarnings s with errorTooManyImages := false }
    simp only [resetWarnings_images] at this ⊢
    simp only [not_lt] at h1
    simp at this ⊢
    omega

end FileUpload

lemma jsSplice1_length_le (l : List TaskImage) (start : Int) :
    (jsSplice1 l start).length ≤ l.length := by
  unfold jsSplice1
  simp only [List.length_append, List.length_take, List.length_drop]
  omega

lemma deleteSingelImage_length_le (l : List TaskImage) (x : TaskImage) :
    (deleteSingelImage l x).length ≤ l.length := by
  unfold deleteSingelImage
  exact jsSplice1_length_le l (jsIndexOf l x)

namespace FileUpload

lemma deleteSingelImageState_len (s : UploadState) (x : TaskImage) :
    ((deleteSingelImageState s x).imagesForUpload).length ≤ s.imagesForUpload.length := by
  unfold deleteSingelImageState
  rw [resetWarnings_images]
  exact deleteSingelImage_length_le _ _

lemma deleteAllImagesFromForm_images (s : UploadState) :
    (deleteAllImagesFromForm s).imagesForUpload = [] := by
  unfold deleteAllImagesFromForm
  rw [resetWarnings_images]

lemma applyOp_len (enc : CompressOracle) (s : UploadState) (op : Op)
    (h : s.imagesForUpload.length ≤ MAX_IMAGES) :
    ((applyOp enc s op).imagesForUpload).length ≤ MAX_IMAGES := by
  cases op with
  | addFiles files => exact addImages_len enc s files h
  | removeOne img =>
    have h2 := deleteSingelImageState_len s img
    rw [applyOp]
    omega
  | clearAll => rw [applyOp, deleteAllImagesFromForm_images]; simp

lemma foldl_applyOp_len (enc : CompressOracle) (ops : List Op) :
    ∀ s : UploadState, s.imagesForUpload.length ≤ MAX_IMAGES →
      ((ops.foldl (applyOp enc) s).imagesForUpload).length ≤ MAX_IMAGES := by
  induction ops with
  | nil => intro s h; exact h
  | cons op ops ih => intro s h; exact ih _ (applyOp_len enc s op h)

end FileUpload

namespace FileUploadOld

lemma shouldSkipImage_images (s : UploadState) (f : FileData) :
    ((shouldSkipImage s f).2).imagesForUpload = s.imagesForUpload := by
  by_cases h1 : s.imagesForUpload.length > 4 <;>
    by_cases h2 : f.type = "image/png" ∨ f.type = "image/jpeg" ∨ f.type = "image/webp" <;>
      by_cases h3 : f.size > 20 * 1024 * 1024 <;>
        simp [shouldSkipImage, thereAreToManyFiles, isInvalidImageFormat, isOversizedImage,
          h1, h2, h3]

lemma handleFile_images_old (enc : CompressOracle) (s : UploadState) (f : FileData) :
    (handleFile enc s f).imagesForUpload = s.imagesForUpload ∨
    ∃ img : TaskImage, (handleFile enc s f).imagesForUpload = s.imagesForUpload ++ [img] := by
  by_cases hsk : (shouldSkipImage s f).1
  · left
    simp only [handleFile, hsk, if_true]
    exact shouldSkipImage_images s f
  · rcases hc : enc f 800 800 0.9 with e | b
    · left
      simp only [handleFile, hsk, Bool.false_eq_true, if_false, hc]
      exact shouldSkipImage_images s f
    · by_cases hov : (createTaskImage f b).size > 160 * 1024
      · left
        simp only [handleFile, hsk, Bool.false_eq_true, if_false, hc,
          isOversizedCompressedImage, hov, if_true]
        exact shouldSkipImage_images s f
      · right
        refine ⟨createTaskImage f b, ?_⟩
        simp only [handleFile, hsk, Bool.false_eq_true, if_false, hc,
          isOversizedCompressedImage, hov, if_true]
        simp [shouldSkipImage_images s f]

lemma handleFile_len_old (enc : CompressOracle) (s : UploadState) (f : FileData) :
    (handleFile enc s f).imagesForUpload.length ≤ s.imagesForUpload.length + 1 := by
  rcases handleFile_images_old enc s f with hi | ⟨img, hi⟩
  · rw [hi]; omega
  · rw [hi]; simp

lemma foldl_handleFile_len_old (enc : CompressOracle) (files : List FileData) :
    ∀ s : UploadState,
      ((files.foldl (handleFile enc) s).imagesForUpload).length ≤
        s.imagesForUpload.length + files.length := by
  induction files with
  | nil => intro s; simp
  | cons f fs ih =>
    intro s
    calc ((fs.foldl (handleFile enc) (handleFile enc s f)).imagesForUpload).length
        ≤ (handleFile enc s f).imagesForUpload.length + fs.length := ih _
      _ ≤ s.imagesForUpload.length + 1 + fs.length := by
          have := handleFile_len_old enc s f; omega
      _ = s.imagesForUpload.length + (f :: fs).length := by simp [List.length_cons]; omega

lemma resetWarnings_images_old (s : UploadState) :
    (resetWarnings s).imagesForUpload = s.imagesForUpload := by
  by_cases h : s.imagesForUpload.length > 4 <;> simp [resetWarnings, thereAreToManyFiles, h]

lemma addImages_eq_old (enc : CompressOracle) (s : UploadState) (files : List FileData) :
    addImages enc s files =
      if files.length + s.imagesForUpload.length < 6 then
        { files.foldl (handleFile enc)
            (resetWarnings { s with lenghtOfImagesToValidate := files.length }) with
            errorToManyImages := false }
      else
        { resetWarnings { s with lenghtOfImagesToValidate := files.length } with
            errorToManyImages := true } := by
  by_cases h : files.length + s.imagesForUpload.length < 6
  · by_cases h0 : files.length > 0
    · simp [addImages, resetWarnings_images_old, h, h0]
    · have hnil : files = [] := List.length_eq_zero.mp (by omega)
      subst hnil
      simp [addImages, resetWarnings_images_old, h]
  · simp [addImages, resetWarnings_images_old, h]

lemma addImages_len_old (enc : CompressOracle) (s : UploadState) (files : List FileData)
    (h : s.imagesForUpload.length ≤ 5) :
    ((addImages enc s files).imagesForUpload).length ≤ 5 := by
  rw [addImages_eq_old]
  split_ifs with h1
  · have := foldl_handleFile_len_old enc files
      (resetWarnings { s with lenghtOfImagesToValidate := files.length })
    simp only [resetWarnings_images_old] at this
    show ((files.foldl (handleFile enc)
        (resetWarnings { s with lenghtOfImagesToValidate := files.length })).imagesForUpload).length ≤ 5
    omega
  · simpa [resetWarnings_images_old] using h

lemma deleteSingelImageState_len_old (s : UploadState) (x : TaskImage) :
    ((deleteSingelImageState s x).imagesForUpload).length ≤ s.imagesForUpload.length := by
  unfold deleteSingelImageState
  rw [resetWarnings_images_old]
  exact deleteSingelImage_length_le _ _

lemma deleteAllImagesFromForm_images_old (s : UploadState) :
    (deleteAllImagesFromForm s).imagesForUpload = [] := by
  unfold deleteAllImagesFromForm
  rw [resetWarnings_images_old]

lemma applyOp_len_old (enc : CompressOracle) (s : UploadState) (op : Op)
    (h : s.imagesForUpload.length ≤ 5) :
    ((applyOp enc s op).imagesForUpload).length ≤ 5 := by
  cases op with
  | addFiles files => exact addImages_len_old enc s files h
  | removeOne img =>
    have h2 := deleteSingelImageState_len_old s img
    rw [applyOp]
    omega
  | clearAll => rw [applyOp, deleteAllImagesFromForm_images_old]; simp

lemma foldl_applyOp_len_old (enc : CompressOracle) (ops : List Op) :
    ∀ s : UploadState, s.imagesForUpload.length ≤ 5 →
      ((ops.foldl (applyOp enc) s).imagesForUpload).length ≤ 5 := by
  induction ops with
  | nil => intro s h; exact h
  | cons op ops ih => intro s h; exact ih _ (applyOp_len_old enc s op h)

end FileUploadOld

/-- C9: in both revisions, `createTaskImage` computes the `size` field as
exactly the encoded payload length times 0.75, and the value depends only on
the encoded string — in particular never on the original file's on-disk
`size` field. -/
theorem createTaskImage_size_formula :
    (∀ (f : FileData) (b : String),
        (FileUpload.createTaskImage f b).size = (b.length : Rat) * 0.75) ∧
    (∀ (f : FileData) (b : String),
        (FileUploadOld.createTaskImage f b).size = (b.length : Rat) * 0.75) ∧
    (∀ (f g : FileData) (b : String),
        (FileUpload.createTaskImage f b).size = (FileUpload.createTaskImage g b).size) :=
  ⟨fun _ _ => rfl, fun _ _ => rfl, fun _ _ _ => rfl⟩

/-- C1 (evaluation at the failing input): with `imgC` absent from
`[imgA, imgB]`, `deleteSingelImage` is not a no-op — `indexOf` returns -1 and
`splice(-1, 1)` removes the last element, yielding `[imgA]`; consequently
removal is not idempotent: removing `imgA` twice from `[imgA, imgB]` first
yields `[imgB]` and then `[]`. -/
theorem deleteSingelImage_absent_removes_last :
    imgC ∉ ([imgA, imgB] : List TaskImage) ∧
    deleteSingelImage [imgA, imgB] imgC = [imgA] ∧
    deleteSingelImage [imgA, imgB] imgA = [imgB] ∧
    deleteSingelImage (deleteSingelImage [imgA, imgB] imgA) imgA ≠
      deleteSingelImage [imgA, imgB] imgA := by
  refine ⟨by decide, by decide, by decide, ?_⟩
  decide

/-- C10: the aggregate-budget check is strict — `noRoomForAnotherImage`
reports no room exactly when `currentTotal + newBytes` fails to stay strictly
below 810·1024; a file whose addition would make the total exactly equal to
the budget is rejected into `totalSizeExceededFiles` and not appended; and
after every accepted append the stored total is strictly below 810·1024. -/
theorem noRoomForAnotherImage_strict_boundary :
    (∀ (s : FileUpload.UploadState) (newBytes : Rat) (nm : String),
        (FileUpload.noRoomForAnotherImage s newBytes nm).1 = true ↔
          ¬ (sumSizes s.imagesForUpload + newBytes < FileUpload.MAX_TOTAL_IMAGES_BYTES)) ∧
    (∀ (s : FileUpload.UploadState) (f : FileData) (b : String),
        (FileUpload.createTaskImage f b).size ≤ FileUpload.MAX_SINGLE_IMAGE_BYTES →
        sumSizes s.imagesForUpload + (FileUpload.createTaskImage f b).size =
          FileUpload.MAX_TOTAL_IMAGES_BYTES →
        (FileUpload.handleFileResume s f b).imagesForUpload = s.imagesForUpload ∧
        f.name ∈ (FileUpload.handleFileResume s f b).totalSizeExceededFiles) ∧
    (∀ (s : FileUpload.UploadState) (f : FileData) (b : String),
        (FileUpload.handleFileResume s f b).imagesForUpload =
          s.imagesForUpload ++ [FileUpload.createTaskImage f b] →
        sumSizes ((FileUpload.handleFileResume s f b).imagesForUpload) <
          FileUpload.MAX_TOTAL_IMAGES_BYTES) := by
  refine ⟨?_, ?_, ?_⟩
  · intro s newBytes nm
    by_cases h : sumSizes s.imagesForUpload + newBytes < FileUpload.MAX_TOTAL_IMAGES_BYTES <;>
      simp [FileUpload.noRoomForAnotherImage, h]
  · intro s f b hsize heq
    rw [FileUpload.handleFileResume_eq]
    rw [if_neg (not_lt.mpr hsize), if_neg (by rw [heq]; exact lt_irrefl _)]
    exact ⟨rfl, by simp⟩
  · intro s f b hpush
    rw [FileUpload.handleFileResume_eq] at hpush ⊢
    split_ifs at hpush ⊢ with h1 h2
    · exact absurd (congrArg List.length hpush) (by simp)
    · show sumSizes (s.imagesForUpload ++ [FileUpload.createTaskImage f b]) <
        FileUpload.MAX_TOTAL_IMAGES_BYTES
      rw [sumSizes_append]
      exact h2
    · exact absurd (congrArg List.length hpush) (by simp)

/-- C2: budget conservation — starting from any state whose stored total is
within the 810 KB budget, any sequence of `addImages` batches keeps the sum
of the `size` fields within the budget; moreover a file that passes the
per-file check but whose size would push the running total past the budget
is recorded in `totalSizeExceededFiles` and not appended. -/
theorem addImages_budget_conservation
    (enc : CompressOracle) (batches : List (List FileData)) (s : FileUpload.UploadState)
    (h : sumSizes s.imagesForUpload ≤ FileUpload.MAX_TOTAL_IMAGES_BYTES) :
    sumSizes ((batches.foldl (FileUpload.addImages enc) s).imagesForUpload) ≤
      FileUpload.MAX_TOTAL_IMAGES_BYTES ∧
    ∀ (s2 : FileUpload.UploadState) (f : FileData) (b : String),
      (FileUpload.createTaskImage f b).size ≤ FileUpload.MAX_SINGLE_IMAGE_BYTES →
      sumSizes s2.imagesForUpload + (FileUpload.createTaskImage f b).size >
        FileUpload.MAX_TOTAL_IMAGES_BYTES →
      (FileUpload.handleFileResume s2 f b).imagesForUpload = s2.imagesForUpload ∧
      f.name ∈ (FileUpload.handleFileResume s2 f b).totalSizeExceededFiles := by
  constructor
  · induction batches generalizing s with
    | nil => exact h
    | cons batch batches ih =>
      exact ih _ (FileUpload.addImages_sum enc s batch h)
  · intro s2 f b hsize hgt
    rw [FileUpload.handleFileResume_eq]
    rw [if_neg (not_lt.mpr hsize), if_neg (not_lt.mpr (le_of_lt hgt))]
    exact ⟨rfl, by simp⟩

/-- C2 witness: instantiation at the empty state and a two-batch run. -/
theorem addImages_budget_conservation_witness :
    sumSizes (([[fGood], [fGood]].foldl (FileUpload.addImages encOk) emptyState).imagesForUpload) ≤
      FileUpload.MAX_TOTAL_IMAGES_BYTES :=
  (addImages_budget_conservation encOk [[fGood], [fGood]] emptyState
    (by norm_num [emptyState, sumSizes, FileUpload.MAX_TOTAL_IMAGES_BYTES])).1

/-- C6: count conservation — any sequence of add, single-remove and clear
operations keeps the complete revision's collection within 8 entries (and
the earlier revision's within 5); a batch whose length plus the current
count would exceed the limit is rejected with the too-many-images flag and
the result does not depend on the encoder, i.e. no file of the batch is
compressed. -/
theorem attachment_count_conservation :
    (∀ (enc : CompressOracle) (ops : List FileUpload.Op) (s : FileUpload.UploadState),
        s.imagesForUpload.length ≤ FileUpload.MAX_IMAGES →
        ((ops.foldl (FileUpload.applyOp enc) s).imagesForUpload).length ≤
          FileUpload.MAX_IMAGES) ∧
    (∀ (enc : CompressOracle) (s : FileUpload.UploadState) (files : List FileData),
        s.imagesForUpload.length + files.length > FileUpload.MAX_IMAGES →
        FileUpload.addImages enc s files =
          { FileUpload.resetWarnings s with errorTooManyImages := true }) ∧
    (∀ (enc : CompressOracle) (ops : List FileUploadOld.Op) (s : FileUploadOld.UploadState),
        s.imagesForUpload.length ≤ 5 →
        ((ops.foldl (FileUploadOld.applyOp enc) s).imagesForUpload).length ≤ 5) ∧
    (∀ (enc : CompressOracle) (s : FileUploadOld.UploadState) (files : List FileData),
        ¬ (files.length + s.imagesForUpload.length < 6) →
        FileUploadOld.addImages enc s files =
          { FileUploadOld.resetWarnings { s with lenghtOfImagesToValidate := files.length } with
              errorToManyImages := true }) := by
  refine ⟨?_, ?_, ?_, ?_⟩
  · intro enc ops s h
    exact FileUpload.foldl_applyOp_len enc ops s h
  · intro enc s files h
    rw [FileUpload.addImages_eq, if_pos h]
  · intro enc ops s h
    exact FileUploadOld.foldl_applyOp_len_old enc ops s h
  · intro enc s files h
    rw [FileUploadOld.addImages_eq_old, if_neg h]

/-- C6 witness: instantiation at the empty state with one add, one remove
and one clear; and the concrete batch rejection at the full state. -/
theorem attachment_count_conservation_witness :
    ((([FileUpload.Op.addFiles [fGood], FileUpload.Op.removeOne imgA,
        FileUpload.Op.clearAll]).foldl (FileUpload.applyOp encOk)
          emptyState).imagesForUpload).length ≤ FileUpload.MAX_IMAGES ∧
    FileUpload.addImages encOk fullState [fGood] =
      { FileUpload.resetWarnings fullState with errorTooManyImages := true } :=
  ⟨attachment_count_conservation.1 encOk _ emptyState (by simp [emptyState]),
   attachment_count_conservation.2.1 encOk fullState [fGood]
     (by simp [fullState, emptyState, FileUpload.MAX_IMAGES])⟩

lemma foldl_handleFile_all_invalid (enc : CompressOracle) (files : List FileData) :
    ∀ s : FileUpload.UploadState,
      (∀ f ∈ files, ¬(f.type = "image/jpeg" ∨ f.type = "image/webp")) →
      s.imagesForUpload.length + files.length ≤ FileUpload.MAX_IMAGES →
      (files.foldl (FileUpload.handleFile enc) s).imagesForUpload = s.imagesForUpload ∧
      (files.foldl (FileUpload.handleFile enc) s).invalidFiles =
        s.invalidFiles ++ files.map (fun f => f.name) ∧
      (files.foldl (FileUpload.handleFile enc) s).totalSizeExceededFiles =
        s.totalSizeExceededFiles ∧
      (files.foldl (FileUpload.handleFile enc) s).oversizedCompressedImages =
        s.oversizedCompressedImages := by
  induction files with
  | nil => intro s _ _; simp
  | cons f fs ih =>
    intro s hfmt hcount
    have hlen : ¬ (s.imagesForUpload.length > FileUpload.MAX_IMAGES) := by
      simp only [List.length_cons] at hcount; omega
    have hstep : FileUpload.handleFile enc s f =
        { s with errorTooManyImages := false, invalidFiles := s.invalidFiles ++ [f.name] } := by
      rw [FileUpload.handleFile_eq, if_neg hlen, if_neg (hfmt f (by simp))]
    have hcount2 :
        ({ s with errorTooManyImages := false, invalidFiles := s.invalidFiles ++ [f.name] } :
            FileUpload.UploadState).imagesForUpload.length + fs.length ≤
          FileUpload.MAX_IMAGES := by
      simp only [List.length_cons] at hcount
      simpa using by omega
    have ihx := ih
      { s with errorTooManyImages := false, invalidFiles := s.invalidFiles ++ [f.name] }
      (fun g hg => hfmt g (by simp [hg])) hcount2
    simp only [List.foldl_cons, hstep]
    refine ⟨ihx.1, ?_, ihx.2.2.1, ihx.2.2.2⟩
    rw [ihx.2.1]
    simp

/-- C3 (counterexample): a valid candidate submitted to a full collection is
rejected by the aggregate count check, but its filename is recorded in none
of the rejection categories — only the boolean too-many-images signal is
set.  This refutes the claim that every non-accepted candidate has its
filename recorded under exactly one rejection category. -/
theorem addImages_count_rejection_records_no_filename :
    ((FileUpload.addImages encOk fullState [fGood]).imagesForUpload).length = 8 ∧
    (FileUpload.addImages encOk fullState [fGood]).invalidFiles = [] ∧
    (FileUpload.addImages encOk fullState [fGood]).totalSizeExceededFiles = [] ∧
    (FileUpload.addImages encOk fullState [fGood]).oversizedCompressedImages = [] ∧
    (FileUpload.addImages encOk fullState [fGood]).errorTooManyImages = true := by
  rw [FileUpload.addImages_eq, if_pos (by simp [fullState, emptyState, FileUpload.MAX_IMAGES])]
  simp [FileUpload.resetWarnings, FileUpload.wouldExceedImageLimit, fullState, emptyState,
    FileUpload.MAX_IMAGES]

/-- C3 (amended): when the batch does not trip the aggregate count check,
a batch in which every file has an invalid format leaves the collection
unchanged, records each filename in the invalid-format category exactly once
(in batch order), and leaves the other categories empty. -/
theorem addImages_all_invalid_format_report (enc : CompressOracle)
    (s : FileUpload.UploadState) (files : List FileData)
    (hfmt : ∀ f ∈ files, ¬(f.type = "image/jpeg" ∨ f.type = "image/webp"))
    (hcount : s.imagesForUpload.length + files.length ≤ FileUpload.MAX_IMAGES) :
    (FileUpload.addImages enc s files).imagesForUpload = s.imagesForUpload ∧
    (FileUpload.addImages enc s files).invalidFiles = files.map (fun f => f.name) ∧
    (FileUpload.addImages enc s files).totalSizeExceededFiles = [] ∧
    (FileUpload.addImages enc s files).oversizedCompressedImages = [] := by
  rw [FileUpload.addImages_eq, if_neg (not_lt.mpr hcount)]
  have hx := foldl_handleFile_all_invalid enc files
    { FileUpload.resetWarnings s with errorTooManyImages := false }
    hfmt (by simpa [FileUpload.resetWarnings_images] using hcount)
  simp only [FileUpload.resetWarnings_images] at hx
  refine ⟨by simpa [FileUpload.resetWarnings_images] using hx.1, ?_, ?_, ?_⟩
  · have : ({ FileUpload.resetWarnings s with errorTooManyImages := false } :
        FileUpload.UploadState).invalidFiles = [] := by
      simp [FileUpload.resetWarnings, FileUpload.wouldExceedImageLimit]
    simpa [this] using hx.2.1
  · have : ({ FileUpload.resetWarnings s with errorTooManyImages := false } :
        FileUpload.UploadState).totalSizeExceededFiles = [] := by
      simp [FileUpload.resetWarnings, FileUpload.wouldExceedImageLimit]
    simpa [this] using hx.2.2.1
  · have : ({ FileUpload.resetWarnings s with errorTooManyImages := false } :
        FileUpload.UploadState).oversizedCompressedImages = [] := by
      simp [FileUpload.resetWarnings, FileUpload.wouldExceedImageLimit]
    simpa [this] using hx.2.2.2

/-- C3 witness: one all-invalid batch (a GIF) at the empty state gives an
unchanged empty collection and exactly one invalid-format entry. -/
theorem addImages_all_invalid_format_report_witness :
    (FileUpload.addImages encOk emptyState [fGif]).imagesForUpload = [] ∧
    (FileUpload.addImages encOk emptyState [fGif]).invalidFiles = ["anim.gif"] := by
  have hx := addImages_all_invalid_format_report encOk emptyState [fGif]
    (by intro f hf; simp at hf; subst hf; simp [fGif])
    (by simp [emptyState, FileUpload.MAX_IMAGES])
  exact ⟨by simpa [emptyState] using hx.1, by simpa [fGif] using hx.2.1⟩

/-- C4 (evaluation at the failing schedule): `deleteAllImagesFromForm` runs
while the compression of `fGood` (from a pre-clear batch) is in flight; when
the completion resumes, the JavaScript code re-reads `this.imagesForUpload`
and pushes into the live, just-cleared array, so the cleared collection ends
up containing the pre-clear batch's attachment — it is not discarded. -/
theorem post_clear_straggler_resurrects_attachment :
    (FileUpload.deleteAllImagesFromForm preClearState).imagesForUpload = [] ∧
    (FileUpload.handleFileResume (FileUpload.deleteAllImagesFromForm preClearState)
        fGood "bbbb").imagesForUpload =
      [FileUpload.createTaskImage fGood "bbbb"] := by
  constructor
  · exact FileUpload.deleteAllImagesFromForm_images preClearState
  · rw [FileUpload.handleFileResume_eq]
    rw [if_neg (by norm_num [FileUpload.createTaskImage, FileUpload.MAX_SINGLE_IMAGE_BYTES,
      show "bbbb".length = 4 from rfl])]
    rw [if_pos (by norm_num [FileUpload.createTaskImage, FileUpload.MAX_TOTAL_IMAGES_BYTES,
      FileUpload.deleteAllImagesFromForm_images, sumSizes,
      show "bbbb".length = 4 from rfl])]
    show (FileUpload.deleteAllImagesFromForm preClearState).imagesForUpload ++
        [FileUpload.createTaskImage fGood "bbbb"] = _
    rw [FileUpload.deleteAllImagesFromForm_images]
    simp

/-- C5 (amended): a file whose read or decode fails is skipped — nothing is
pushed, no rejection category records it, no exception reaches the caller —
and the remaining files of the batch are still processed; the call is
observably identical to the same call without the failing file, so no
distinct failure signal reaches the caller. -/
theorem io_failure_skips_file_and_batch_continues (enc : CompressOracle)
    (s : FileUpload.UploadState) (f1 : FileData) (rest : List FileData) (e : String)
    (hfmt : f1.type = "image/jpeg" ∨ f1.type = "image/webp")
    (herr : FileUpload.compressToTargetSize enc f1 = Except.error e)
    (hcount : s.imagesForUpload.length + (f1 :: rest).length ≤ FileUpload.MAX_IMAGES) :
    FileUpload.addImages enc s (f1 :: rest) = FileUpload.addImages enc s rest := by
  rw [FileUpload.addImages_eq, FileUpload.addImages_eq]
  rw [if_neg (not_lt.mpr hcount),
    if_neg (not_lt.mpr (by simp only [List.length_cons] at hcount; omega))]
  have hlen2 : ({ FileUpload.resetWarnings s with errorTooManyImages := false } :
      FileUpload.UploadState).imagesForUpload.length = s.imagesForUpload.length := by
    simp [FileUpload.resetWarnings_images]
  have hstep : FileUpload.handleFile enc
      { FileUpload.resetWarnings s with errorTooManyImages := false } f1 =
      { FileUpload.resetWarnings s with errorTooManyImages := false } := by
    rw [FileUpload.handleFile_eq]
    rw [if_neg (by rw [hlen2]; simp only [List.length_cons] at hcount; omega)]
    rw [if_pos hfmt, herr]
  simp only [List.foldl_cons, hstep]

/-- C5 (counterexample): with an encoder whose read of `fBad` fails, the
call that submits `fBad` is equal, state for state, to the call that never
submitted it — and likewise with a second healthy file in the batch — so the
I/O failure produces no caller-visible signal at all, refuting the
surfaced-as-distinct-signal part of the claim; the failing file is skipped
while `fGood` is still accepted. -/
theorem io_failure_indistinguishable_from_absent_file :
    FileUpload.compressToTargetSize encSel fBad = Except.error "Failed to read file." ∧
    FileUpload.addImages encSel emptyState [fBad] = FileUpload.addImages encSel emptyState [] ∧
    FileUpload.addImages encSel emptyState [fBad, fGood] =
      FileUpload.addImages encSel emptyState [fGood] ∧
    ((FileUpload.addImages encSel emptyState [fBad, fGood]).imagesForUpload).length = 1 := by
  refine ⟨rfl, ?_, ?_, ?_⟩
  · norm_num [FileUpload.addImages, FileUpload.resetWarnings, FileUpload.wouldExceedImageLimit,
      FileUpload.handleFile, FileUpload.shouldSkipFile, FileUpload.isInvalidImageFormat,
      FileUpload.compressToTargetSize, FileUpload.compressLoop, FileUpload.MAX_IMAGES,
      emptyState, fBad, encSel]
  · norm_num [FileUpload.addImages, FileUpload.resetWarnings, FileUpload.wouldExceedImageLimit,
      FileUpload.handleFile, FileUpload.shouldSkipFile, FileUpload.isInvalidImageFormat,
      FileUpload.compressToTargetSize, FileUpload.compressLoop, FileUpload.MAX_IMAGES,
      emptyState, fBad, fGood, encSel, show ¬("new.jpeg" = "bad.jpeg") from by decide]
  · norm_num [FileUpload.addImages, FileUpload.resetWarnings, FileUpload.wouldExceedImageLimit,
      FileUpload.handleFile, FileUpload.shouldSkipFile, FileUpload.isInvalidImageFormat,
      FileUpload.compressToTargetSize, FileUpload.compressLoop, FileUpload.handleFileResume,
      FileUpload.imageExceedsSizeLimit, FileUpload.noRoomForAnotherImage,
      FileUpload.createTaskImage, sumSizes, FileUpload.MAX_IMAGES,
      FileUpload.MAX_SINGLE_IMAGE_BYTES, FileUpload.MAX_TOTAL_IMAGES_BYTES,
      emptyState, fBad, fGood, encSel, show "bbbb".length = 4 from rfl,
      show ¬("new.jpeg" = "bad.jpeg") from by decide]

/-- C5 witness: the amended theorem instantiated with the concrete failing
encoder, the failing file and one healthy companion file. -/
theorem io_failure_skips_file_and_batch_continues_witness :
    FileUpload.addImages encSel emptyState [fBad, fGood] =
      FileUpload.addImages encSel emptyState [fGood] :=
  io_failure_skips_file_and_batch_continues encSel emptyState fBad [fGood]
    "Failed to read file." (by simp [fBad]) rfl
    (by simp [emptyState, FileUpload.MAX_IMAGES])

lemma compressLoop_step (enc : CompressOracle) (f : FileData) (g : Rat → String)
    (h : ∀ q : Rat, enc f 800 800 q = Except.ok (g q))
    (q : Rat) (b : String) (n : Nat)
    (hgt : FileUpload.MAX_SINGLE_IMAGE_BYTES < (b.length : Rat) * 0.75) :
    FileUpload.compressLoop enc f q b (n + 1) =
      FileUpload.compressLoop enc f (q - 0.2) (g (q - 0.2)) n := by
  rw [FileUpload.compressLoop, if_pos hgt, h (q - 0.2)]

lemma compressLoop_stop (enc : CompressOracle) (f : FileData)
    (q : Rat) (b : String) (n : Nat)
    (hle : ¬ FileUpload.MAX_SINGLE_IMAGE_BYTES < (b.length : Rat) * 0.75) :
    FileUpload.compressLoop enc f q b (n + 1) = Except.ok b := by
  rw [FileUpload.compressLoop, if_neg hle]

/-- C7: the quality-retry loop — with an encoder delivering `g q` at quality
`q`, `compressToTargetSize` returns the encoding of the original file at
`chosenQuality g`: the first quality of the ladder 0.95, 0.75, 0.55, 0.35,
0.15 (one fixed 0.2 decrement per retry, at most 4 retries, always at the
same 800×800 bounds and from the original file) whose estimated size
`length * 0.75` is within the 400 KB per-file maximum, with 0.15 as the
final fallback; every strictly higher quality of the ladder was over the
maximum, so the loop stops as soon as the estimate fits. -/
theorem compressToTargetSize_quality_retry (enc : CompressOracle) (f : FileData)
    (g : Rat → String) (h : ∀ q : Rat, enc f 800 800 q = Except.ok (g q)) :
    FileUpload.compressToTargetSize enc f = Except.ok (g (chosenQuality g)) ∧
    chosenQuality g ∈ retryQualities ∧
    (estSize (g (chosenQuality g)) ≤ FileUpload.MAX_SINGLE_IMAGE_BYTES ∨
      chosenQuality g = 0.15) ∧
    (∀ q ∈ retryQualities, chosenQuality g < q →
      FileUpload.MAX_SINGLE_IMAGE_BYTES < estSize (g q)) := by
  have e1 : (0.95 - 0.2 : Rat) = 0.75 := by norm_num
  have e2 : (0.75 - 0.2 : Rat) = 0.55 := by norm_num
  have e3 : (0.55 - 0.2 : Rat) = 0.35 := by norm_num
  have e4 : (0.35 - 0.2 : Rat) = 0.15 := by norm_num
  have hstart : FileUpload.compressToTargetSize enc f =
      FileUpload.compressLoop enc f 0.95 (g 0.95) 4 := by
    rw [FileUpload.compressToTargetSize, h 0.95]
  by_cases c0 : estSize (g 0.95) ≤ FileUpload.MAX_SINGLE_IMAGE_BYTES
  · have hq : chosenQuality g = 0.95 := by rw [chosenQuality, if_pos c0]
    refine ⟨?_, by rw [hq]; simp [retryQualities], by rw [hq]; exact Or.inl c0, ?_⟩
    · rw [hstart, hq, compressLoop_stop enc f _ _ _ (not_lt.mpr c0)]
    · intro q hq2 hlt
      rw [hq] at hlt
      simp only [retryQualities, List.mem_cons, List.not_mem_nil, or_false] at hq2
      rcases hq2 with rfl | rfl | rfl | rfl | rfl <;> (exfalso; revert hlt; norm_num)
  · rw [not_le] at c0
    by_cases c1 : estSize (g 0.75) ≤ FileUpload.MAX_SINGLE_IMAGE_BYTES
    · have hq : chosenQuality g = 0.75 := by
        rw [chosenQuality, if_neg (not_le.mpr c0), if_pos c1]
      refine ⟨?_, by rw [hq]; simp [retryQualities], by rw [hq]; exact Or.inl c1, ?_⟩
      · rw [hstart, hq, compressLoop_step enc f g h _ _ _ c0, e1,
          compressLoop_stop enc f _ _ _ (not_lt.mpr c1)]
      · intro q hq2 hlt
        rw [hq] at hlt
        simp only [retryQualities, List.mem_cons, List.not_mem_nil, or_false] at hq2
        rcases hq2 with rfl | rfl | rfl | rfl | rfl
        · exact c0
        all_goals (exfalso; revert hlt; norm_num)
    · rw [not_le] at c1
      by_cases c2 : estSize (g 0.55) ≤ FileUpload.MAX_SINGLE_IMAGE_BYTES
      · have hq : chosenQuality g = 0.55 := by
          rw [chosenQuality, if_neg (not_le.mpr c0), if_neg (not_le.mpr c1), if_pos c2]
        refine ⟨?_, by rw [hq]; simp [retryQualities], by rw [hq]; exact Or.inl c2, ?_⟩
        · rw [hstart, hq, compressLoop_step enc f g h _ _ _ c0, e1,
            compressLoop_step enc f g h _ _ _ c1, e2,
            compressLoop_stop enc f _ _ _ (not_lt.mpr c2)]
        · intro q hq2 hlt
          rw [hq] at hlt
          simp only [retryQualities, List.mem_cons, List.not_mem_nil, or_false] at hq2
          rcases hq2 with rfl | rfl | rfl | rfl | rfl
          · exact c0
          · exact c1
          all_goals (exfalso; revert hlt; norm_num)
      · rw [not_le] at c2
        by_cases c3 : estSize (g 0.35) ≤ FileUpload.MAX_SINGLE_IMAGE_BYTES
        · have hq : chosenQuality g = 0.35 := by
            rw [chosenQuality, if_neg (not_le.mpr c0), if_neg (not_le.mpr c1),
              if_neg (not_le.mpr c2), if_pos c3]
          refine ⟨?_, by rw [hq]; simp [retryQualities], by rw [hq]; exact Or.inl c3, ?_⟩
          · rw [hstart, hq, compressLoop_step enc f g h _ _ _ c0, e1,
              compressLoop_step enc f g h _ _ _ c1, e2,
              compressLoop_step enc f g h _ _ _ c2, e3,
              compressLoop_stop enc f _ _ _ (not_lt.mpr c3)]
          · intro q hq2 hlt
            rw [hq] at hlt
            simp only [retryQualities, List.mem_cons, List.not_mem_nil, or_false] at hq2
            rcases hq2 with rfl | rfl | rfl | rfl | rfl
            · exact c0
            · exact c1
            · exact c2
            all_goals (exfalso; revert hlt; norm_num)
        · rw [not_le] at c3
          have hq : chosenQuality g = 0.15 := by
            rw [chosenQuality, if_neg (not_le.mpr c0), if_neg (not_le.mpr c1),
              if_neg (not_le.mpr c2), if_neg (not_le.mpr c3)]
          refine ⟨?_, by rw [hq]; simp [retryQualities], Or.inr hq, ?_⟩
          · rw [hstart, hq, compressLoop_step enc f g h _ _ _ c0, e1,
              compressLoop_step enc f g h _ _ _ c1, e2,
              compressLoop_step enc f g h _ _ _ c2, e3,
              compressLoop_step enc f g h _ _ _ c3, e4]
            rw [FileUpload.compressLoop]
          · intro q hq2 hlt
            rw [hq] at hlt
            simp only [retryQualities, List.mem_cons, List.not_mem_nil, or_false] at hq2
            rcases hq2 with rfl | rfl | rfl | rfl | rfl
            · exact c0
            · exact c1
            · exact c2
            · exact c3
            all_goals (exfalso; revert hlt; norm_num)

/-- C7 witness: a constant encoder whose tiny output fits immediately, so
the loop stops at the first quality 0.95. -/
theorem compressToTargetSize_quality_retry_witness :
    FileUpload.compressToTargetSize encOk fGood =
      Except.ok ((fun _ => "bbbb") (chosenQuality (fun _ => "bbbb"))) :=
  (compressToTargetSize_quality_retry encOk fGood (fun _ => "bbbb")
    (fun _ => rfl)).1

/-- C8: aspect-ratio-preserving resampling — against the 800×800 bounds the
computed dimensions equal the original dimensions multiplied by the uniform
scale factor `min 1 (min (800/w) (800/h))`; in particular a 2000×1000 image
becomes exactly 800×400 and an image already within the bounds keeps its
dimensions. -/
theorem setCanvasSize_aspect_ratio :
    (∀ w h : Rat, 0 < w → 0 < h →
        FileUpload.setCanvasSize w h 800 800 =
          (w * specScaleFactor w h 800 800, h * specScaleFactor w h 800 800)) ∧
    FileUpload.setCanvasSize 2000 1000 800 800 = (800, 400) ∧
    (∀ w h : Rat, 0 < w → 0 < h → w ≤ 800 → h ≤ 800 →
        FileUpload.setCanvasSize w h 800 800 = (w, h)) := by
  have key : ∀ w h : Rat, 0 < w → 0 < h →
      FileUpload.setCanvasSize w h 800 800 =
        (w * specScaleFactor w h 800 800, h * specScaleFactor w h 800 800) := by
    intro w h hw hh
    by_cases hbig : w > 800 ∨ h > 800
    · by_cases hwh : w > h
      · have hw8 : (800 : Rat) < w := by
          rcases hbig with hb | hb
          · exact hb
          · exact lt_trans hb hwh
        have hdivw : (800 : Rat) / w < 1 := (div_lt_one hw).mpr hw8
        have hdiv2 : (800 : Rat) / w ≤ 800 / h :=
          div_le_div_of_nonneg_left (by norm_num) hh (le_of_lt hwh)
        have hfac : specScaleFactor w h 800 800 = 800 / w := by
          rw [specScaleFactor, min_eq_left hdiv2, min_eq_right (le_of_lt hdivw)]
        rw [FileUpload.setCanvasSize, if_pos hbig, if_pos hwh, hfac]
        have hww : w * (800 / w) = 800 := by
          field_simp
        have hhw : h * (800 / w) = h * 800 / w := by
          rw [mul_div_assoc]
        rw [hww, hhw]
      · rw [not_lt] at hwh
        have hh8 : (800 : Rat) < h := by
          rcases hbig with hb | hb
          · exact lt_of_lt_of_le hb hwh
          · exact hb
        have hdivh : (800 : Rat) / h < 1 := (div_lt_one hh).mpr hh8
        have hdiv2 : (800 : Rat) / h ≤ 800 / w :=
          div_le_div_of_nonneg_left (by norm_num) hw hwh
        have hfac : specScaleFactor w h 800 800 = 800 / h := by
          rw [specScaleFactor, min_eq_right hdiv2, min_eq_right (le_of_lt hdivh)]
        rw [FileUpload.setCanvasSize, if_pos hbig, if_neg (not_lt.mpr hwh), hfac]
        have hhh : h * (800 / h) = 800 := by
          field_simp
        have hwr : w * (800 / h) = w * 800 / h := by
          rw [mul_div_assoc]
        rw [hhh, hwr]
    · push_neg at hbig
      obtain ⟨hw8, hh8⟩ := hbig
      have h1 : (1 : Rat) ≤ 800 / w := (one_le_div hw).mpr hw8
      have h2 : (1 : Rat) ≤ 800 / h := (one_le_div hh).mpr hh8
      have hfac : specScaleFactor w h 800 800 = 1 := by
        rw [specScaleFactor, min_eq_left (le_min h1 h2)]
      rw [FileUpload.setCanvasSize, if_neg (by push_neg; exact ⟨hw8, hh8⟩), hfac]
      rw [mul_one, mul_one]
  refine ⟨key, ?_, ?_⟩
  · rw [key 2000 1000 (by norm_num) (by norm_num)]
    rw [specScaleFactor]
    norm_num
  · intro w h hw hh hw8 hh8
    rw [key w h hw hh]
    have h1 : (1 : Rat) ≤ 800 / w := (one_le_div hw).mpr hw8
    have h2 : (1 : Rat) ≤ 800 / h := (one_le_div hh).mpr hh8
    rw [specScaleFactor, min_eq_left (le_min h1 h2), mul_one, mul_one]

/-- C8 witness: the 2000×1000 scenario — positivity discharged concretely
and the resampled dimensions computed through the scale-factor formula. -/
theorem setCanvasSize_aspect_ratio_witness :
    FileUpload.setCanvasSize 2000 1000 800 800 =
      (2000 * specScaleFactor 2000 1000 800 800, 1000 * specScaleFactor 2000 1000 800 800) :=
  setCanvasSize_aspect_ratio.1 2000 1000 (by norm_num) (by norm_num)

/-- C10 witness: at a state 3 bytes below the budget, a file estimating to
exactly 3 bytes makes the total exactly equal to the budget and is rejected
into the total-size-exceeded category without being appended. -/
theorem noRoomForAnotherImage_strict_boundary_witness :
    (FileUpload.handleFileResume nearFullState fGood "bbbb").imagesForUpload =
      nearFullState.imagesForUpload ∧
    "new.jpeg" ∈ (FileUpload.handleFileResume nearFullState fGood "bbbb").totalSizeExceededFiles := by
  have hx := noRoomForAnotherImage_strict_boundary.2.1 nearFullState fGood "bbbb"
    (by norm_num [FileUpload.createTaskImage, FileUpload.MAX_SINGLE_IMAGE_BYTES,
      show "bbbb".length = 4 from rfl])
    (by norm_num [FileUpload.createTaskImage, FileUpload.MAX_TOTAL_IMAGES_BYTES,
      nearFullState, emptyState, imgBudget, imgA, sumSizes, show "bbbb".length = 4 from rfl])
  exact ⟨hx.1, by simpa [fGood] using hx.2⟩
